import Mathlib

set_option maxRecDepth 4000
set_option maxHeartbeats 1000000

namespace Mana

/-- Token kinds of the mana-script lexer, as inspected by `Parser` and
`Interpreter` in the C++ source (`parser.cpp`, `interpreter.cpp`). -/
inductive TokenType where
  | PLUS | MINUS | STAR | SLASH | PERCENT
  | BANG | BANG_EQUAL | EQUAL | EQUAL_EQUAL
  | LESS | LESS_EQUAL | GREATER | GREATER_EQUAL
  | AND | OR
  | LEFT_PAREN | RIGHT_PAREN | LEFT_BRACE | RIGHT_BRACE
  | COMMA | SEMICOLON
  | INTEGER_LITERAL | FLOAT_LITERAL | STRING_LITERAL | IDENTIFIER
  | TRUE | FALSE | NIL
  | VAR | CONST | IF | ELSE | WHILE | FOR | RETURN | FUNCTION | PRINT
  | END_OF_FILE
deriving DecidableEq, Repr

/-- A lexical token: kind, lexeme text and source position (`Token` in the
C++ source). -/
structure Token where
  type : TokenType
  lexeme : String
  line : Nat
  col : Nat
deriving DecidableEq, Repr

/-- The dynamic value union of the interpreter
(`using Value = std::variant<int, double, std::string, bool, std::nullptr_t>`).
The C++ `double` payload is modelled here as an exact rational number
`Rat`: adequate for the arithmetic and fault-classification claims, whose
float values are small decimal literals and results on which IEEE-754
double arithmetic is exact, and whose operator dispatch depends only on
the payload kind. This idealization deliberately drops the IEEE special
values; where they matter — the equality claim, because a NaN double
compares unequal to itself — the refined union `ValueD` below, whose float
payload `DoubleVal` retains NaN and the infinities, is used instead. The
C++ `int` payload is modelled as `Int` (no claim exercises 32-bit
overflow, which is undefined behaviour in the C++ source anyway). -/
inductive Value where
  | VInt : Int → Value
  | VFloat : Rat → Value
  | VStr : String → Value
  | VBool : Bool → Value
  | VNil : Value
deriving DecidableEq, Repr

/-- Accumulates the decimal digits of a character list onto `acc`
(helper for `stod`). -/
def digitsToNat : List Char → Nat → Nat
  | [], acc => acc
  | c :: rest, acc => digitsToNat rest (acc * 10 + (c.toNat - 48))

/-- Character loop of `stod`: accumulates integer-part digits until a
decimal point, then adds the fractional part scaled by its length. -/
def stodLoop : List Char → Nat → Rat
  | [], acc => (acc : Rat)
  | c :: rest, acc =>
    if c = '.' then (acc : Rat) + (digitsToNat rest 0 : Rat) / (10 ^ rest.length : Rat)
    else stodLoop rest (acc * 10 + (c.toNat - 48))

/-- Models `std::stod` on the numeric lexemes the mana-script lexer emits
(decimal digits with an optional fractional part), returning the exact
rational value of the decimal text; IEEE-754 rounding is modelled as exact,
which is faithful on every literal the claims use. -/
def stod (s : String) : Rat := stodLoop s.data 0

/-- Expression nodes of the AST (`LiteralExpr`, `UnaryExpr`, `BinaryExpr`,
`GroupingExpr`, `VariableExpr`, `AssignExpr`, `CallExpr` in the C++ source).
Operator and name tokens are stored in the nodes exactly as the parser
stores them. -/
inductive Expr where
  | lit : Value → Expr
  | unary : Token → Expr → Expr
  | binary : Expr → Token → Expr → Expr
  | grouping : Expr → Expr
  | var : Token → Expr
  | assign : Token → Expr → Expr
  | call : Expr → Token → List Expr → Expr
deriving Repr

/-- Statement nodes of the AST (`ExpressionStmt`, `VarDeclStmt`, `BlockStmt`,
`IfStmt`, `WhileStmt`, `FunctionStmt`, `ReturnStmt` in the C++ source).
`funcS` carries no payload because `Parser::statement` never constructs a
`FunctionStmt` and `Interpreter::visitFunctionStmt` ignores it. -/
inductive Stmt where
  | exprStmt : Expr → Stmt
  | varDecl : Token → Option Expr → Bool → Stmt
  | block : List Stmt → Stmt
  | ifS : Expr → Stmt → Option Stmt → Stmt
  | whileS : Expr → Stmt → Stmt
  | funcS : Stmt
  | returnS : Token → Option Expr → Stmt
deriving Repr

/-- Interpreter state: the single flat variable environment
(`std::unordered_map<std::string, Value> variables`, modelled as a lookup
function) together with everything written to the output sink so far
(`std::cout`, one entry per printed line). -/
structure IState where
  vars : String → Option Value
  output : List String

/-- The empty starting state of a run: no variables bound, nothing printed. -/
def initState : IState := ⟨fun _ => none, []⟩

/-- Binding update of the environment, as performed by
`variables[name] = value` on the C++ `unordered_map`: inserts the key if
absent, overwrites it otherwise. -/
def setVar (vars : String → Option Value) (k : String) (v : Value) : String → Option Value :=
  fun q => if q = k then some v else vars q

/-- Per-kind textual rendering of a value by the `print` built-in
(`Interpreter::visitCallExpr`): decimal for `int`, `true`/`false` for
`bool`, `nil` for `nullptr`, verbatim for `string`. For the `double` kind
the C++ code streams the value through `std::cout`; an integral double is
printed without a decimal point, which is the only case a claim can reach,
and is what `renderFloat` reproduces. -/
def renderFloat (q : Rat) : String :=
  if q.den = 1 then toString q.num else toString q

/-- Dispatch of `render` over the value union (the chain of
`std::holds_alternative` tests in `Interpreter::visitCallExpr`). -/
def render (v : Value) : String :=
  match v with
  | .VInt n => toString n
  | .VFloat q => renderFloat q
  | .VStr s => s
  | .VBool b => if b then "true" else "false"
  | .VNil => "nil"

/-- The pure binary-operator kernel of `Interpreter::visitBinaryExpr`:
given the operator token kind and the two already-evaluated operand values,
returns the result value or the `std::runtime_error` message the C++ code
throws. The `==`/`!=` cases use structural equality of the value union,
exactly as `std::variant::operator==` does (discriminant must match, then
the payloads are compared). Integer division truncates toward zero
(`Int.tdiv`), as C++ `int` division does. -/
def binOp (op : TokenType) (l r : Value) : Except String Value :=
  match op with
  | .PLUS =>
    match l, r with
    | .VInt a, .VInt b => .ok (.VInt (a + b))
    | .VFloat a, .VFloat b => .ok (.VFloat (a + b))
    | .VStr a, .VStr b => .ok (.VStr (a ++ b))
    | .VStr a, .VInt b => .ok (.VStr (a ++ toString b))
    | .VInt a, .VStr b => .ok (.VStr (toString a ++ b))
    | _, _ => .error "Invalid operands to +"
  | .MINUS =>
    match l, r with
    | .VInt a, .VInt b => .ok (.VInt (a - b))
    | .VFloat a, .VFloat b => .ok (.VFloat (a - b))
    | _, _ => .error "Invalid operands to -"
  | .STAR =>
    match l, r with
    | .VInt a, .VInt b => .ok (.VInt (a * b))
    | .VFloat a, .VFloat b => .ok (.VFloat (a * b))
    | _, _ => .error "Invalid operands to *"
  | .SLASH =>
    match l, r with
    | .VInt a, .VInt b =>
      if b = 0 then .error "Division by zero" else .ok (.VInt (a.tdiv b))
    | .VFloat a, .VFloat b =>
      if b = 0 then .error "Division by zero" else .ok (.VFloat (a / b))
    | _, _ => .error "Invalid operands to /"
  | .EQUAL_EQUAL => .ok (.VBool (decide (l = r)))
  | .BANG_EQUAL => .ok (.VBool (!decide (l = r)))
  | .LESS =>
    match l, r with
    | .VInt a, .VInt b => .ok (.VBool (decide (a < b)))
    | .VFloat a, .VFloat b => .ok (.VBool (decide (a < b)))
    | _, _ => .error "Invalid operands to <"
  | .LESS_EQUAL =>
    match l, r with
    | .VInt a, .VInt b => .ok (.VBool (decide (a ≤ b)))
    | .VFloat a, .VFloat b => .ok (.VBool (decide (a ≤ b)))
    | _, _ => .error "Invalid operands to <="
  | .GREATER =>
    match l, r with
    | .VInt a, .VInt b => .ok (.VBool (decide (a > b)))
    | .VFloat a, .VFloat b => .ok (.VBool (decide (a > b)))
    | _, _ => .error "Invalid operands to >"
  | .GREATER_EQUAL =>
    match l, r with
    | .VInt a, .VInt b => .ok (.VBool (decide (a ≥ b)))
    | .VFloat a, .VFloat b => .ok (.VBool (decide (a ≥ b)))
    | _, _ => .error "Invalid operands to >="
  | _ => .error "Unknown binary operator"

/-- The C++ `double` payload refined to retain the IEEE-754 special
values: a finite (exactly representable) value, the two infinities, or
NaN. Used where the idealized `Rat` payload of `Value` is not faithful:
the `operator==` of `double` — and hence `std::variant::operator==` on the
value union — returns `false` whenever either operand is NaN, including
`NaN == NaN`, and NaN doubles are reachable in the interpreter via float
overflow (infinity minus infinity). -/
inductive DoubleVal where
  | finite : Rat → DoubleVal
  | posInf : DoubleVal
  | negInf : DoubleVal
  | nan : DoubleVal
deriving DecidableEq, Repr

/-- IEEE-754 `operator==` on the refined `double` payload: finite values
compare by value, each infinity equals itself, and NaN is unequal to
everything — itself included. (`-0.0 == 0.0` holds in IEEE and both map to
`finite 0`, so nothing is lost there.) -/
def doubleEq : DoubleVal → DoubleVal → Bool
  | .finite a, .finite b => decide (a = b)
  | .posInf, .posInf => true
  | .negInf, .negInf => true
  | _, _ => false

/-- The value union with the refined `double` payload (same shape as
`Value`, float payload `DoubleVal` instead of `Rat`). -/
inductive ValueD where
  | VInt : Int → ValueD
  | VFloat : DoubleVal → ValueD
  | VStr : String → ValueD
  | VBool : Bool → ValueD
  | VNil : ValueD
deriving DecidableEq, Repr

/-- `std::variant::operator==` on the refined value union: the
discriminants must match, then the payloads are compared with the own `operator==` of the payload
type — which for the `double` alternative is IEEE
equality, not structural identity. -/
def variantEqD : ValueD → ValueD → Bool
  | .VInt a, .VInt b => decide (a = b)
  | .VFloat a, .VFloat b => doubleEq a b
  | .VStr a, .VStr b => decide (a = b)
  | .VBool a, .VBool b => decide (a = b)
  | .VNil, .VNil => true
  | _, _ => false

/-- The `EQUAL_EQUAL` and `BANG_EQUAL` cases of
`Interpreter::visitBinaryExpr` over the refined value union:
`lastValue = left == right` resp. `left != right`, with no operand
inspection and no throw on any pair. `none` marks the operator cases this
refinement does not model (they are covered by `binOp` on `Value`). -/
def binOpEqD : TokenType → ValueD → ValueD → Option ValueD
  | .EQUAL_EQUAL, l, r => some (.VBool (variantEqD l r))
  | .BANG_EQUAL, l, r => some (.VBool (!variantEqD l r))
  | _, _, _ => none

/-- Whether a refined value is a NaN-payload float — the one shape on
which the `==` of the program is irreflexive. -/
def isNanD : ValueD → Bool
  | .VFloat .nan => true
  | _ => false

mutual

/-- Evaluation of an expression (`Interpreter::evaluate` dispatching through
the `visit*Expr` members). A runtime fault is an `error` carrying the
`std::runtime_error` message together with the state at the moment of the
throw (side effects already performed are retained, as in C++). An unknown
unary operator token leaves the operand value as the result, exactly as the
bodiless fall-through of `visitUnaryExpr` leaves `lastValue`. -/
def evalE : Expr → IState → Except (String × IState) (Value × IState)
  | .lit v, st => .ok (v, st)
  | .grouping e, st => evalE e st
  | .unary op right, st =>
    match evalE right st with
    | .error f => .error f
    | .ok (rv, st₁) =>
      if op.type = TokenType.MINUS then
        match rv with
        | .VInt n => .ok (.VInt (-n), st₁)
        | .VFloat q => .ok (.VFloat (-q), st₁)
        | _ => .error ("Unary minus on non-number", st₁)
      else if op.type = TokenType.BANG then
        match rv with
        | .VBool b => .ok (.VBool (!b), st₁)
        | _ => .error ("Unary ! on non-bool", st₁)
      else .ok (rv, st₁)
  | .binary l op r, st =>
    match evalE l st with
    | .error f => .error f
    | .ok (lv, st₁) =>
      match evalE r st₁ with
      | .error f => .error f
      | .ok (rv, st₂) =>
        match binOp op.type lv rv with
        | .error m => .error (m, st₂)
        | .ok v => .ok (v, st₂)
  | .var name, st =>
    match st.vars name.lexeme with
    | none => .error ("Undefined variable: " ++ name.lexeme, st)
    | some v => .ok (v, st)
  | .assign name e, st =>
    match evalE e st with
    | .error f => .error f
    | .ok (v, st₁) => .ok (v, { st₁ with vars := setVar st₁.vars name.lexeme v })
  | .call callee _ args, st =>
    match callee with
    | .var nameTok =>
      if nameTok.lexeme = "print" then
        match evalPrintArgs args st with
        | .error f => .error f
        | .ok st₁ => .ok (.VNil, st₁)
      else .error ("Only print() is supported as a built-in function", st)
    | _ => .error ("Only print() is supported as a built-in function", st)

/-- The argument loop of the `print` built-in (`Interpreter::visitCallExpr`):
evaluates each argument left to right and appends one rendered line per
argument to the output sink. -/
def evalPrintArgs : List Expr → IState → Except (String × IState) IState
  | [], st => .ok st
  | a :: rest, st =>
    match evalE a st with
    | .error f => .error f
    | .ok (v, st₁) => evalPrintArgs rest { st₁ with output := st₁.output ++ [render v] }

end

mutual

/-- Execution of one statement (`Interpreter::execute` dispatching through
the `visit*Stmt` members). `whileS`, `funcS` and `returnS` are explicit
no-ops, mirroring the empty visitor bodies in the C++ source. -/
def exec : Stmt → IState → Except (String × IState) IState
  | .exprStmt e, st =>
    match evalE e st with
    | .error f => .error f
    | .ok (_, st₁) => .ok st₁
  | .varDecl name init _, st =>
    match init with
    | none => .ok { st with vars := setVar st.vars name.lexeme Value.VNil }
    | some e =>
      match evalE e st with
      | .error f => .error f
      | .ok (v, st₁) => .ok { st₁ with vars := setVar st₁.vars name.lexeme v }
  | .block ss, st => execList ss st
  | .ifS c t els, st =>
    match evalE c st with
    | .error f => .error f
    | .ok (cv, st₁) =>
      match cv with
      | .VBool b => if b then exec t st₁ else execElse els st₁
      | .VInt n => if n ≠ 0 then exec t st₁ else execElse els st₁
      | _ => .error ("Invalid condition in if statement", st₁)
  | .whileS _ _, st => .ok st
  | .funcS, st => .ok st
  | .returnS _ _, st => .ok st

/-- Execution of the else branch of an `if` statement when present
(the `stmt.getElseBranch()` null test in `Interpreter::visitIfStmt`). -/
def execElse : Option Stmt → IState → Except (String × IState) IState
  | none, st => .ok st
  | some s, st => exec s st

/-- Execution of a statement list in order, stopping at the first fault
(the loop of `Interpreter::visitBlockStmt`). -/
def execList : List Stmt → IState → Except (String × IState) IState
  | [], st => .ok st
  | s :: rest, st =>
    match exec s st with
    | .error f => .error f
    | .ok st₁ => execList rest st₁

end

/-- Top-level entry of the evaluator (`Interpreter::interpret`): executes
the statements in order against the shared state; the first runtime fault
propagates immediately out, aborting the remaining statements. -/
def interpret : List Stmt → IState → Except (String × IState) IState
  | [], st => .ok st
  | s :: rest, st =>
    match exec s st with
    | .error f => .error f
    | .ok st₁ => interpret rest st₁

/-- The end-of-file sentinel token. It doubles as the out-of-range default
of `peekP`: a well-formed lexer stream is terminated by an explicit
`END_OF_FILE` token which the parser never steps past, so the default is
only reached on inputs on which the C++ `tokens[current]` read would be out
of range (undefined behaviour); treating such a read as end of file is the
totalizing choice. -/
def eofTok : Token := ⟨TokenType.END_OF_FILE, "", 0, 0⟩

/-- Parser cursor state: the not-yet-consumed suffix of the token stream
(`tokens` from index `current` on), the most recently consumed token
(`previous()`), and the `filename` member used for diagnostic locations.
Diagnostics are not part of the state: the C++ diagnostics collector is an
append-only sink, so each parsing function returns the list of diagnostics
it appended. -/
structure PState where
  rest : List Token
  prev : Token
  fname : String
deriving DecidableEq, Repr

/-- `Parser::peek`: the current token. -/
def peekP (st : PState) : Token := st.rest.headD eofTok

/-- `Parser::isAtEnd`: whether the current token is `END_OF_FILE`. -/
def isAtEndP (st : PState) : Bool := decide ((peekP st).type = TokenType.END_OF_FILE)

/-- `Parser::advance`: consumes the current token unless at end of file,
and returns `previous()`. -/
def advanceP (st : PState) : Token × PState :=
  match st.rest with
  | [] => (st.prev, st)
  | t :: ts =>
    if t.type = TokenType.END_OF_FILE then (st.prev, st)
    else (t, { st with rest := ts, prev := t })

/-- `Parser::check`: whether the current token has the given kind
(`false` at end of file). -/
def checkP (ty : TokenType) (st : PState) : Bool :=
  if isAtEndP st then false else decide ((peekP st).type = ty)

/-- `Parser::match` on a single kind: on success returns the advanced state
(the consumed token is its `prev`) together with the strict-progress facts
the termination measure needs; `none` means the token did not match and the
state is unchanged. -/
def matchTokP (ty : TokenType) (st : PState) : Option PState :=
  match st.rest with
  | [] => none
  | t :: ts =>
    if t.type = TokenType.END_OF_FILE then none
    else if t.type = ty then some { st with rest := ts, prev := t }
    else none

/-- `Parser::match` on an initializer list of kinds: tries each kind in
order, consuming at most one token. -/
def matchAnyP (tys : List TokenType) (st : PState) : Option PState :=
  match tys with
  | [] => none
  | ty :: tyRest =>
    match matchTokP ty st with
    | some r => some r
    | none => matchAnyP tyRest st

/-- A reported parse diagnostic: severity is always `ERROR` in the source,
so only the message and the source location (filename, line, column of the
offending token) are modelled. -/
structure Diag where
  msg : String
  file : String
  line : Nat
  col : Nat
deriving DecidableEq, Repr

/-- `Parser::error`: builds the diagnostic that is reported to the
diagnostics collector — the message plus either the offending lexeme or
"at end of file" when the stream is exhausted. -/
def mkError (st : PState) (tok : Token) (msg : String) : Diag :=
  if tok.type = TokenType.END_OF_FILE then
    ⟨msg ++ " at end of file", st.fname, tok.line, tok.col⟩
  else
    ⟨msg ++ " at \x27" ++ tok.lexeme ++ "\x27", st.fname, tok.line, tok.col⟩

/-- `Parser::consume`: advances past a token of the expected kind, or
reports a diagnostic and throws a `ParseError` carrying the raw message
(the cursor is left where it was, exactly as a C++ throw leaves `current`). -/
def consumeTokP (ty : TokenType) (msg : String) (st : PState) :
    Except (String × List Diag) (Token × PState) :=
  match matchTokP ty st with
  | some st₁ => .ok (st₁.prev, st₁)
  | none => .error (msg, [mkError st (peekP st) msg])

/-- The statement-start kinds of the `switch` in `Parser::synchronize`. -/
def isSyncKeyword : TokenType → Bool
  | .FUNCTION | .VAR | .CONST | .FOR | .IF | .WHILE | .RETURN => true
  | _ => false

/-- The skipping loop of `Parser::synchronize`: discards tokens until the
just-consumed token is a semicolon, the current token begins a new
statement, or the stream is exhausted. -/
def syncLoopP (st : PState) : PState :=
  match h : st.rest with
  | [] => st
  | t :: ts =>
    if t.type = TokenType.END_OF_FILE then st
    else if st.prev.type = TokenType.SEMICOLON then st
    else if isSyncKeyword t.type then st
    else syncLoopP { st with rest := ts, prev := t }
termination_by st.rest.length
decreasing_by simp [h]

/-- `Parser::synchronize` (panic-mode recovery): advance one token, then
skip forward to a safe restart point. -/
def synchronizeP (st : PState) : PState := syncLoopP (advanceP st).2

/-- Result of one parsing routine: a parsed value with the state after it
and the diagnostics appended while parsing it, or a thrown `ParseError`
(raw message, the cursor state at the throw — a C++ throw leaves `current`
where it was — and the diagnostics reported up to and including the throw).
`out` is fuel exhaustion of the shallow embedding's recursion-depth budget:
every recursive call in the C++ parser either consumes a token first or
moves strictly down the fixed grammar chain, so the recursion depth is
bounded by a small multiple of the remaining stream length and `out` is
never reached from `parseP`, which budgets accordingly. -/
inductive PR (α : Type) where
  | ok : α → PState → List Diag → PR α
  | err : String → PState → List Diag → PR α
  | out : PR α
deriving Repr

/-- Splices diagnostics reported before a sub-parse in front of the
sub-parse's result diagnostics (the C++ diagnostics collector is an
append-only sink). -/
def PR.pre {α : Type} (pre : List Diag) : PR α → PR α
  | .ok a st ds => .ok a st (pre ++ ds)
  | .err m st ds => .err m st (pre ++ ds)
  | .out => .out

mutual

/-- `Parser::expression`: delegates to `assignment`. -/
def expressionP : Nat → PState → PR Expr
  | 0, _ => .out
  | fuel+1, st => assignmentP fuel st

/-- `Parser::assignment`: parses a `logicalOr` expression, then an optional
right-associative `=` tail; assigning to a non-variable target reports
"Invalid assignment target" but returns the target expression and keeps
parsing (the `error` return value is not thrown). -/
def assignmentP : Nat → PState → PR Expr
  | 0, _ => .out
  | fuel+1, st =>
    match logicalOrP fuel st with
    | .out => .out
    | .err m stE ds => .err m stE ds
    | .ok e st₁ ds₁ =>
      match matchTokP TokenType.EQUAL st₁ with
      | none => .ok e st₁ ds₁
      | some st₂ =>
        match assignmentP fuel st₂ with
        | .out => .out
        | .err m stE ds => .err m stE (ds₁ ++ ds)
        | .ok value st₃ ds₃ =>
          match e with
          | .var nameTok => .ok (.assign nameTok value) st₃ (ds₁ ++ ds₃)
          | _ =>
            .ok e st₃ (ds₁ ++ ds₃ ++ [mkError st₂ st₂.prev "Invalid assignment target"])

/-- `Parser::logicalOr`. -/
def logicalOrP : Nat → PState → PR Expr
  | 0, _ => .out
  | fuel+1, st =>
    match logicalAndP fuel st with
    | .out => .out
    | .err m stE ds => .err m stE ds
    | .ok e st₁ ds₁ => (orLoopP fuel e st₁).pre ds₁

/-- The `while (match(OR))` loop of `Parser::logicalOr`. -/
def orLoopP : Nat → Expr → PState → PR Expr
  | 0, _, _ => .out
  | fuel+1, e, st =>
    match matchTokP TokenType.OR st with
    | none => .ok e st []
    | some st₁ =>
      match logicalAndP fuel st₁ with
      | .out => .out
      | .err m stE ds => .err m stE ds
      | .ok right st₂ ds₂ => (orLoopP fuel (.binary e st₁.prev right) st₂).pre ds₂

/-- `Parser::logicalAnd`. -/
def logicalAndP : Nat → PState → PR Expr
  | 0, _ => .out
  | fuel+1, st =>
    match equalityP fuel st with
    | .out => .out
    | .err m stE ds => .err m stE ds
    | .ok e st₁ ds₁ => (andLoopP fuel e st₁).pre ds₁

/-- The `while (match(AND))` loop of `Parser::logicalAnd`. -/
def andLoopP : Nat → Expr → PState → PR Expr
  | 0, _, _ => .out
  | fuel+1, e, st =>
    match matchTokP TokenType.AND st with
    | none => .ok e st []
    | some st₁ =>
      match equalityP fuel st₁ with
      | .out => .out
      | .err m stE ds => .err m stE ds
      | .ok right st₂ ds₂ => (andLoopP fuel (.binary e st₁.prev right) st₂).pre ds₂

/-- `Parser::equality`. -/
def equalityP : Nat → PState → PR Expr
  | 0, _ => .out
  | fuel+1, st =>
    match comparisonP fuel st with
    | .out => .out
    | .err m stE ds => .err m stE ds
    | .ok e st₁ ds₁ => (eqLoopP fuel e st₁).pre ds₁

/-- The `while (match({BANG_EQUAL, EQUAL_EQUAL}))` loop of
`Parser::equality`. -/
def eqLoopP : Nat → Expr → PState → PR Expr
  | 0, _, _ => .out
  | fuel+1, e, st =>
    match matchAnyP [TokenType.BANG_EQUAL, TokenType.EQUAL_EQUAL] st with
    | none => .ok e st []
    | some st₁ =>
      match comparisonP fuel st₁ with
      | .out => .out
      | .err m stE ds => .err m stE ds
      | .ok right st₂ ds₂ => (eqLoopP fuel (.binary e st₁.prev right) st₂).pre ds₂

/-- `Parser::comparison`. -/
def comparisonP : Nat → PState → PR Expr
  | 0, _ => .out
  | fuel+1, st =>
    match termP fuel st with
    | .out => .out
    | .err m stE ds => .err m stE ds
    | .ok e st₁ ds₁ => (compLoopP fuel e st₁).pre ds₁

/-- The comparison-operator loop of `Parser::comparison`. -/
def compLoopP : Nat → Expr → PState → PR Expr
  | 0, _, _ => .out
  | fuel+1, e, st =>
    match matchAnyP [TokenType.GREATER, TokenType.GREATER_EQUAL,
                     TokenType.LESS, TokenType.LESS_EQUAL] st with
    | none => .ok e st []
    | some st₁ =>
      match termP fuel st₁ with
      | .out => .out
      | .err m stE ds => .err m stE ds
      | .ok right st₂ ds₂ => (compLoopP fuel (.binary e st₁.prev right) st₂).pre ds₂

/-- `Parser::term` (additive level). -/
def termP : Nat → PState → PR Expr
  | 0, _ => .out
  | fuel+1, st =>
    match factorP fuel st with
    | .out => .out
    | .err m stE ds => .err m stE ds
    | .ok e st₁ ds₁ => (termLoopP fuel e st₁).pre ds₁

/-- The `while (match({MINUS, PLUS}))` loop of `Parser::term`. -/
def termLoopP : Nat → Expr → PState → PR Expr
  | 0, _, _ => .out
  | fuel+1, e, st =>
    match matchAnyP [TokenType.MINUS, TokenType.PLUS] st with
    | none => .ok e st []
    | some st₁ =>
      match factorP fuel st₁ with
      | .out => .out
      | .err m stE ds => .err m stE ds
      | .ok right st₂ ds₂ => (termLoopP fuel (.binary e st₁.prev right) st₂).pre ds₂

/-- `Parser::factor` (multiplicative level). -/
def factorP : Nat → PState → PR Expr
  | 0, _ => .out
  | fuel+1, st =>
    match unaryP fuel st with
    | .out => .out
    | .err m stE ds => .err m stE ds
    | .ok e st₁ ds₁ => (factorLoopP fuel e st₁).pre ds₁

/-- The `while (match({SLASH, STAR, PERCENT}))` loop of `Parser::factor`. -/
def factorLoopP : Nat → Expr → PState → PR Expr
  | 0, _, _ => .out
  | fuel+1, e, st =>
    match matchAnyP [TokenType.SLASH, TokenType.STAR, TokenType.PERCENT] st with
    | none => .ok e st []
    | some st₁ =>
      match unaryP fuel st₁ with
      | .out => .out
      | .err m stE ds => .err m stE ds
      | .ok right st₂ ds₂ => (factorLoopP fuel (.binary e st₁.prev right) st₂).pre ds₂

/-- `Parser::unary`: right-recursive prefix `!`/`-`, else `call`. -/
def unaryP : Nat → PState → PR Expr
  | 0, _ => .out
  | fuel+1, st =>
    match matchAnyP [TokenType.BANG, TokenType.MINUS] st with
    | some st₁ =>
      match unaryP fuel st₁ with
      | .out => .out
      | .err m stE ds => .err m stE ds
      | .ok right st₂ ds₂ => .ok (.unary st₁.prev right) st₂ ds₂
    | none => callP fuel st

/-- `Parser::call`: a primary expression followed by zero or more
parenthesized argument lists. -/
def callP : Nat → PState → PR Expr
  | 0, _ => .out
  | fuel+1, st =>
    match primaryP fuel st with
    | .out => .out
    | .err m stE ds => .err m stE ds
    | .ok e st₁ ds₁ => (callLoopP fuel e st₁).pre ds₁

/-- The `while (true) if (match(LEFT_PAREN))` loop of `Parser::call`,
supporting chained calls. -/
def callLoopP : Nat → Expr → PState → PR Expr
  | 0, _, _ => .out
  | fuel+1, e, st =>
    match matchTokP TokenType.LEFT_PAREN st with
    | none => .ok e st []
    | some st₁ =>
      match finishCallP fuel e st₁ with
      | .out => .out
      | .err m stE ds => .err m stE ds
      | .ok e₂ st₂ ds₂ => (callLoopP fuel e₂ st₂).pre ds₂

/-- `Parser::finishCall`: parses the argument list (when the next token is
not `)`) and the closing parenthesis, then builds the `CallExpr`. -/
def finishCallP : Nat → Expr → PState → PR Expr
  | 0, _, _ => .out
  | fuel+1, callee, st =>
    if checkP TokenType.RIGHT_PAREN st then
      match consumeTokP TokenType.RIGHT_PAREN "Expect \x27)\x27 after arguments." st with
      | .error (m, ds) => .err m st ds
      | .ok (paren, st₁) => .ok (.call callee paren []) st₁ []
    else
      match argsLoopP fuel [] st with
      | .out => .out
      | .err m stE ds => .err m stE ds
      | .ok args st₁ ds₁ =>
        match consumeTokP TokenType.RIGHT_PAREN "Expect \x27)\x27 after arguments." st₁ with
        | .error (m, ds) => .err m st₁ (ds₁ ++ ds)
        | .ok (paren, st₂) => .ok (.call callee paren args) st₂ ds₁

/-- The `do { ... } while (match(COMMA))` argument loop of
`Parser::finishCall`: before parsing each argument, if 255 arguments have
already been collected, the soft-limit diagnostic is reported (`error` is
called but its return value is not thrown) and parsing continues
regardless. -/
def argsLoopP : Nat → List Expr → PState → PR (List Expr)
  | 0, _, _ => .out
  | fuel+1, args, st =>
    let limitDs : List Diag :=
      if args.length ≥ 255 then
        [mkError st (peekP st) "Cannot have more than 255 arguments."]
      else []
    match expressionP fuel st with
    | .out => .out
    | .err m stE ds => .err m stE (limitDs ++ ds)
    | .ok a st₁ ds₁ =>
      match matchTokP TokenType.COMMA st₁ with
      | none => .ok (args ++ [a]) st₁ (limitDs ++ ds₁)
      | some st₂ => (argsLoopP fuel (args ++ [a]) st₂).pre (limitDs ++ ds₁)

/-- `Parser::primary`: literals, identifiers and parenthesized groupings.
Both integer and float literal lexemes are converted through the same
`std::stod` call, producing a `double`-kind (`VFloat`) literal value.
An unmatched token throws "Expect expression.". -/
def primaryP : Nat → PState → PR Expr
  | 0, _ => .out
  | fuel+1, st =>
    match matchTokP TokenType.FALSE st with
    | some st₁ => .ok (.lit (.VBool false)) st₁ []
    | none =>
    match matchTokP TokenType.TRUE st with
    | some st₁ => .ok (.lit (.VBool true)) st₁ []
    | none =>
    match matchTokP TokenType.NIL st with
    | some st₁ => .ok (.lit .VNil) st₁ []
    | none =>
    match matchAnyP [TokenType.INTEGER_LITERAL, TokenType.FLOAT_LITERAL] st with
    | some st₁ => .ok (.lit (.VFloat (stod st₁.prev.lexeme))) st₁ []
    | none =>
    match matchTokP TokenType.STRING_LITERAL st with
    | some st₁ => .ok (.lit (.VStr st₁.prev.lexeme)) st₁ []
    | none =>
    match matchTokP TokenType.IDENTIFIER st with
    | some st₁ => .ok (.var st₁.prev) st₁ []
    | none =>
    match matchTokP TokenType.LEFT_PAREN st with
    | some st₁ =>
      match expressionP fuel st₁ with
      | .out => .out
      | .err m stE ds => .err m stE ds
      | .ok e st₂ ds₂ =>
        match consumeTokP TokenType.RIGHT_PAREN "Expect \x27)\x27 after expression." st₂ with
        | .error (m, ds) => .err m st₂ (ds₂ ++ ds)
        | .ok (_, st₃) => .ok (.grouping e) st₃ ds₂
    | none =>
      .err "Expect expression." st [mkError st (peekP st) "Expect expression."]

end

mutual

/-- `Parser::declaration`: a `var` declaration or a statement. -/
def declarationP : Nat → PState → PR Stmt
  | 0, _ => .out
  | fuel+1, st =>
    match matchTokP TokenType.VAR st with
    | some st₁ => varDeclarationP fuel false st₁
    | none => statementP fuel st

/-- `Parser::statement`: dispatches on the leading keyword; a `{` opens a
block; anything else is an expression statement. There is no `FOR` case:
`Parser::forStatement` exists in the source but is never reached from
`statement`, so it is dead code and not modelled. -/
def statementP : Nat → PState → PR Stmt
  | 0, _ => .out
  | fuel+1, st =>
    match matchTokP TokenType.IF st with
    | some st₁ => ifStatementP fuel st₁
    | none =>
    match matchTokP TokenType.WHILE st with
    | some st₁ => whileStatementP fuel st₁
    | none =>
    match matchTokP TokenType.PRINT st with
    | some st₁ => printStatementP fuel st₁
    | none =>
    match matchTokP TokenType.RETURN st with
    | some st₁ => returnStatementP fuel st₁
    | none =>
    match matchTokP TokenType.LEFT_BRACE st with
    | some st₁ =>
      match blockP fuel st₁ with
      | .out => .out
      | .err m stE ds => .err m stE ds
      | .ok ss st₂ ds₂ => .ok (.block ss) st₂ ds₂
    | none => expressionStatementP fuel st

/-- `Parser::varDeclaration`: consumes the variable name, an optional
`= initializer` (mandatory when `isConst`; `declaration` never passes
`true`), and the terminating semicolon. -/
def varDeclarationP : Nat → Bool → PState → PR Stmt
  | 0, _, _ => .out
  | fuel+1, isConst, st =>
    match consumeTokP TokenType.IDENTIFIER "Expect variable name" st with
    | .error (m, ds) => .err m st ds
    | .ok (name, st₁) =>
      match matchTokP TokenType.EQUAL st₁ with
      | some st₂ =>
        match expressionP fuel st₂ with
        | .out => .out
        | .err m stE ds => .err m stE ds
        | .ok init st₃ ds₃ =>
          match consumeTokP TokenType.SEMICOLON
              "Expect \x27;\x27 after variable declaration" st₃ with
          | .error (m, ds) => .err m st₃ (ds₃ ++ ds)
          | .ok (_, st₄) => .ok (.varDecl name (some init) isConst) st₄ ds₃
      | none =>
        if isConst then
          .err "Const declarations must have an initializer" st₁
            [mkError st₁ name "Const declarations must have an initializer"]
        else
          match consumeTokP TokenType.SEMICOLON
              "Expect \x27;\x27 after variable declaration" st₁ with
          | .error (m, ds) => .err m st₁ ds
          | .ok (_, st₂) => .ok (.varDecl name none isConst) st₂ []

/-- `Parser::printStatement`: reached when `statement` has just consumed a
`PRINT` keyword token. It parses the following expression and the
semicolon, and wraps the expression in a plain `ExpressionStmt` — no call
or print node is created for the keyword itself. -/
def printStatementP : Nat → PState → PR Stmt
  | 0, _ => .out
  | fuel+1, st =>
    match expressionP fuel st with
    | .out => .out
    | .err m stE ds => .err m stE ds
    | .ok value st₁ ds₁ =>
      match consumeTokP TokenType.SEMICOLON "Expect \x27;\x27 after value." st₁ with
      | .error (m, ds) => .err m st₁ (ds₁ ++ ds)
      | .ok (_, st₂) => .ok (.exprStmt value) st₂ ds₁

/-- `Parser::ifStatement`. -/
def ifStatementP : Nat → PState → PR Stmt
  | 0, _ => .out
  | fuel+1, st =>
    match consumeTokP TokenType.LEFT_PAREN "Expect \x27(\x27 after \x27if\x27" st with
    | .error (m, ds) => .err m st ds
    | .ok (_, st₁) =>
      match expressionP fuel st₁ with
      | .out => .out
      | .err m stE ds => .err m stE ds
      | .ok cond st₂ ds₂ =>
        match consumeTokP TokenType.RIGHT_PAREN "Expect \x27)\x27 after if condition" st₂ with
        | .error (m, ds) => .err m st₂ (ds₂ ++ ds)
        | .ok (_, st₃) =>
          match statementP fuel st₃ with
          | .out => .out
          | .err m stE ds => .err m stE (ds₂ ++ ds)
          | .ok thenB st₄ ds₄ =>
            match matchTokP TokenType.ELSE st₄ with
            | none => .ok (.ifS cond thenB none) st₄ (ds₂ ++ ds₄)
            | some st₅ =>
              match statementP fuel st₅ with
              | .out => .out
              | .err m stE ds => .err m stE (ds₂ ++ ds₄ ++ ds)
              | .ok elseB st₆ ds₆ =>
                .ok (.ifS cond thenB (some elseB)) st₆ (ds₂ ++ ds₄ ++ ds₆)

/-- `Parser::whileStatement`. -/
def whileStatementP : Nat → PState → PR Stmt
  | 0, _ => .out
  | fuel+1, st =>
    match consumeTokP TokenType.LEFT_PAREN "Expect \x27(\x27 after \x27while\x27" st with
    | .error (m, ds) => .err m st ds
    | .ok (_, st₁) =>
      match expressionP fuel st₁ with
      | .out => .out
      | .err m stE ds => .err m stE ds
      | .ok cond st₂ ds₂ =>
        match consumeTokP TokenType.RIGHT_PAREN "Expect \x27)\x27 after while condition" st₂ with
        | .error (m, ds) => .err m st₂ (ds₂ ++ ds)
        | .ok (_, st₃) =>
          match statementP fuel st₃ with
          | .out => .out
          | .err m stE ds => .err m stE (ds₂ ++ ds)
          | .ok body st₄ ds₄ => .ok (.whileS cond body) st₄ (ds₂ ++ ds₄)

/-- `Parser::returnStatement`: reached when `statement` has just consumed a
`RETURN` keyword (held in `prev`), with an optional value expression. -/
def returnStatementP : Nat → PState → PR Stmt
  | 0, _ => .out
  | fuel+1, st =>
    if checkP TokenType.SEMICOLON st then
      match consumeTokP TokenType.SEMICOLON "Expect \x27;\x27 after return value" st with
      | .error (m, ds) => .err m st ds
      | .ok (_, st₁) => .ok (.returnS st.prev none) st₁ []
    else
      match expressionP fuel st with
      | .out => .out
      | .err m stE ds => .err m stE ds
      | .ok value st₁ ds₁ =>
        match consumeTokP TokenType.SEMICOLON "Expect \x27;\x27 after return value" st₁ with
        | .error (m, ds) => .err m st₁ (ds₁ ++ ds)
        | .ok (_, st₂) => .ok (.returnS st.prev (some value)) st₂ ds₁

/-- `Parser::expressionStatement`: an expression followed by a semicolon. -/
def expressionStatementP : Nat → PState → PR Stmt
  | 0, _ => .out
  | fuel+1, st =>
    match expressionP fuel st with
    | .out => .out
    | .err m stE ds => .err m stE ds
    | .ok e st₁ ds₁ =>
      match consumeTokP TokenType.SEMICOLON "Expect \x27;\x27 after expression" st₁ with
      | .error (m, ds) => .err m st₁ (ds₁ ++ ds)
      | .ok (_, st₂) => .ok (.exprStmt e) st₂ ds₁

/-- The `while (!check(RIGHT_BRACE) && !isAtEnd())` loop of
`Parser::block`. -/
def blockLoopP : Nat → PState → PR (List Stmt)
  | 0, _ => .out
  | fuel+1, st =>
    if checkP TokenType.RIGHT_BRACE st then .ok [] st []
    else if isAtEndP st then .ok [] st []
    else
      match declarationP fuel st with
      | .out => .out
      | .err m stE ds => .err m stE ds
      | .ok s st₁ ds₁ =>
        match blockLoopP fuel st₁ with
        | .out => .out
        | .err m stE ds => .err m stE (ds₁ ++ ds)
        | .ok ss st₂ ds₂ => .ok (s :: ss) st₂ (ds₁ ++ ds₂)

/-- `Parser::block`: the statement loop followed by the closing `}`. -/
def blockP : Nat → PState → PR (List Stmt)
  | 0, _ => .out
  | fuel+1, st =>
    match blockLoopP fuel st with
    | .out => .out
    | .err m stE ds => .err m stE ds
    | .ok ss st₁ ds₁ =>
      match consumeTokP TokenType.RIGHT_BRACE "Expect \x27\x7d\x27 after block" st₁ with
      | .error (m, ds) => .err m st₁ (ds₁ ++ ds)
      | .ok (_, st₂) => .ok ss st₂ ds₁

end

/-- The statement loop of `Parser::parse`: while not at end of file, parse
one declaration; a thrown `ParseError` is caught (its message discarded,
its diagnostics kept) and the parser resynchronizes before resuming. The
returned triple is the statement sequence, the accumulated diagnostics and
the final cursor state. Fuel exhaustion (never reached from `parseP`)
stops the loop gracefully. -/
def parseLoopP : Nat → PState → List Stmt × List Diag × PState
  | 0, st => ([], [], st)
  | fuel+1, st =>
    if isAtEndP st then ([], [], st)
    else
      match declarationP fuel st with
      | .ok s st₁ ds =>
        let r := parseLoopP fuel st₁
        (s :: r.1, ds ++ r.2.1, r.2.2)
      | .err _ stE ds =>
        let r := parseLoopP fuel (synchronizeP stE)
        (r.1, ds ++ r.2.1, r.2.2)
      | .out => ([], [], st)

/-- The recursion-depth budget `parseP` hands the parse loop: the loop
performs at most one iteration per input token, and within one statement
every recursive call either consumes a token first or moves strictly down
the grammar chain of at most 33 levels, so this budget strictly dominates
the depth the C++ parser can reach on the given stream. -/
def parseFuel (toks : List Token) : Nat := 33 * toks.length + 64

/-- `Parser::parse`: the public entry point. Given the lexer's token stream
and the source filename, returns the best-effort statement sequence and the
accumulated diagnostics; a parse failure inside one statement never aborts
the whole parse. -/
def parseP (toks : List Token) (fname : String) : List Stmt × List Diag :=
  let r := parseLoopP (parseFuel toks) ⟨toks, eofTok, fname⟩
  (r.1, r.2.1)

/-- Observer: the value of a single expression evaluated in the empty
starting state, or `none` if evaluation faults. -/
def evalValue (e : Expr) : Option Value :=
  match evalE e initState with
  | .ok (v, _) => some v
  | .error _ => none

/-- Observer: the fault message, if any, of interpreting a statement list
from the empty starting state. -/
def runFault (stmts : List Stmt) : Option String :=
  match interpret stmts initState with
  | .ok _ => none
  | .error (m, _) => some m

/-- Observer: everything printed while interpreting a statement list from
the empty starting state, whether or not a fault ended the run. -/
def runOutput (stmts : List Stmt) : List String :=
  match interpret stmts initState with
  | .ok st => st.output
  | .error (_, st) => st.output

/-- Observer: the fault message, if any, of parsing a token stream and then
interpreting the resulting statements from the empty starting state. -/
def parseRunFault (toks : List Token) : Option String :=
  runFault (parseP toks "test").1

/-- Observer: the output of parsing a token stream and interpreting the
resulting statements from the empty starting state. -/
def parseRunOutput (toks : List Token) : List String :=
  runOutput (parseP toks "test").1

/-- Observer: the output component of an expression-evaluation result (the
lines printed up to the point the evaluation returned or faulted). -/
def EResOutput : Except (String × IState) (Value × IState) → List String
  | .ok (_, st) => st.output
  | .error (_, st) => st.output

/-- Observer: the output component of a statement-execution result. -/
def SResOutput : Except (String × IState) IState → List String
  | .ok st => st.output
  | .error (_, st) => st.output

mutual

/-- Whether an expression syntactically contains a call node whose callee
is literally a variable named `print` — the only construct whose evaluation
writes to the output sink (`Interpreter::visitCallExpr` recognizes the
built-in by a direct `dynamic_pointer_cast` on the callee node). -/
def callsPrint : Expr → Bool
  | .lit _ => false
  | .unary _ r => callsPrint r
  | .binary l _ r => callsPrint l || callsPrint r
  | .grouping e => callsPrint e
  | .var _ => false
  | .assign _ e => callsPrint e
  | .call c _ args =>
    (match c with
     | .var t => decide (t.lexeme = "print")
     | _ => false) || callsPrint c || callsPrintList args

/-- `callsPrint` over an argument list. -/
def callsPrintList : List Expr → Bool
  | [] => false
  | e :: es => callsPrint e || callsPrintList es

end

/-- Diagnostics component of a parse result (`out` carries none). -/
def PR.diags {α : Type} : PR α → List Diag
  | .ok _ _ ds => ds
  | .err _ _ ds => ds
  | .out => []

/-- A parse result with its diagnostics forgotten (used to compare parses
that differ only in what they report). -/
def PR.noDs {α : Type} : PR α → PR α
  | .ok a st _ => .ok a st []
  | .err m st _ => .err m st []
  | .out => .out

/-- Modelled for comparison from the spec sentence "More than 255 arguments
triggers a reported error but is not fatal to parsing (soft limit)": the
argument loop of `finishCall` with the 255-argument check removed, and
otherwise literally identical to `argsLoopP`. -/
def argsLoopNoLimit : Nat → List Expr → PState → PR (List Expr)
  | 0, _, _ => .out
  | fuel+1, args, st =>
    match expressionP fuel st with
    | .out => .out
    | .err m stE ds => .err m stE ds
    | .ok a st₁ ds₁ =>
      match matchTokP TokenType.COMMA st₁ with
      | none => .ok (args ++ [a]) st₁ ds₁
      | some st₂ => (argsLoopNoLimit fuel (args ++ [a]) st₂).pre ds₁


/-- Helper: the kind test of the `/` operator (the pair of
`std::holds_alternative` guards in the `SLASH` case of
`Interpreter::visitBinaryExpr`): both operands numeric of the same kind. -/
def isNumPair : Value → Value → Bool
  | .VInt _, .VInt _ => true
  | .VFloat _, .VFloat _ => true
  | _, _ => false

/-- Observer: the number of arguments of a statement that is a call
expression statement (zero for any other shape). -/
def stmtArgCount : Stmt → Nat
  | .exprStmt (.call _ _ args) => args.length
  | _ => 0

/-- Token stream of a call with 256 arguments followed by a second
statement: `f(1, 1, ..., 1); 2;`. -/
def toks256 : List Token :=
  [⟨.IDENTIFIER, "f", 1, 1⟩, ⟨.LEFT_PAREN, "(", 1, 2⟩] ++
  (List.replicate 255
    [(⟨.INTEGER_LITERAL, "1", 1, 3⟩ : Token), ⟨.COMMA, ",", 1, 4⟩]).flatten ++
  [⟨.INTEGER_LITERAL, "1", 1, 5⟩, ⟨.RIGHT_PAREN, ")", 1, 6⟩, ⟨.SEMICOLON, ";", 1, 7⟩,
   ⟨.INTEGER_LITERAL, "2", 1, 8⟩, ⟨.SEMICOLON, ";", 1, 9⟩, ⟨.END_OF_FILE, "", 1, 10⟩]

/-- Helper: `interpret` runs a concatenation by running the first part and,
only if it succeeded, the second from the resulting state; an error result
is returned unchanged. -/
theorem interpret_append (xs ys : List Stmt) (st : IState) :
    interpret (xs ++ ys) st =
      match interpret xs st with
      | .ok st₁ => interpret ys st₁
      | .error f => .error f := by
  induction xs generalizing st with
  | nil => simp [interpret]
  | cons s rest ih =>
    simp only [List.cons_append, interpret]
    cases exec s st with
    | ok st₁ => exact ih st₁
    | error f => rfl

/-- C2: `interpret` executes the statements of a sequence in order — running
`xs ++ ys` runs `xs` first and continues with `ys` exactly when `xs`
succeeded — and the first runtime fault propagates immediately out: if `xs`
faults with message `m` in state `stE`, then `xs ++ ys` faults identically,
so no statement of `ys` is executed and the output at the fault
(`stE.output`) is the final output — nothing further is printed. -/
theorem claimC2 : ∀ (xs ys : List Stmt) (st : IState),
    (interpret (xs ++ ys) st =
      match interpret xs st with
      | .ok st₁ => interpret ys st₁
      | .error f => .error f) ∧
    (∀ m stE, interpret xs st = .error (m, stE) →
      interpret (xs ++ ys) st = .error (m, stE)) := by
  intro xs ys st
  refine ⟨interpret_append xs ys st, ?_⟩
  intro m stE h
  rw [interpret_append, h]

/-- C2 witness: the program `x; print(1);` (reading the unbound variable
`x`, then printing) faults at the first statement with "Undefined variable:
x" and the appended print statement neither executes nor prints. -/
theorem claimC2_witness :
    interpret [Stmt.exprStmt (.var ⟨.IDENTIFIER, "x", 1, 1⟩)] initState =
      .error ("Undefined variable: x", initState) ∧
    interpret ([Stmt.exprStmt (.var ⟨.IDENTIFIER, "x", 1, 1⟩)] ++
        [Stmt.exprStmt (.call (.var ⟨.IDENTIFIER, "print", 2, 1⟩) ⟨.RIGHT_PAREN, ")", 2, 8⟩
          [.lit (.VFloat 1)])]) initState =
      .error ("Undefined variable: x", initState) :=
  ⟨rfl, (claimC2 _ _ _).2 _ _ rfl⟩

/-- Helper: IEEE equality on the refined `double` payload is symmetric. -/
theorem doubleEq_symm (a b : DoubleVal) : doubleEq a b = doubleEq b a := by
  cases a <;> cases b <;> simp only [doubleEq, decide_eq_decide] <;>
    first
    | rfl
    | exact eq_comm

/-- Helper: `std::variant::operator==` on the refined union is symmetric. -/
theorem variantEqD_symm (l r : ValueD) : variantEqD l r = variantEqD r l := by
  cases l <;> cases r <;>
    simp only [variantEqD, decide_eq_decide] <;>
    first
    | rfl
    | exact eq_comm
    | exact doubleEq_symm ..

/-- C4 counterexample: the claimed universal reflexivity fails on the
program. Over the IEEE-faithful refinement of the value union, a float
whose `double` payload is NaN does not equal itself: the `EQUAL_EQUAL`
case of `visitBinaryExpr` computes `left == right` through
`std::variant::operator==`, whose `double` comparison is IEEE equality,
false on NaN operands — so `v == v` evaluates to `false` (with no fault)
at `v` = float NaN. -/
theorem claimC4_counterexample :
    binOpEqD TokenType.EQUAL_EQUAL (.VFloat .nan) (.VFloat .nan) =
      some (.VBool false) ∧
    variantEqD (.VFloat .nan) (.VFloat .nan) = false :=
  ⟨rfl, rfl⟩

/-- C4 (amended): over the IEEE-faithful refinement of the value union,
the equality operators never fault on any pair — `==` always returns the
Boolean of `std::variant::operator==` (the discriminants must match, then
the payloads are compared with the own `operator==` of the payload type)
and `!=` its negation — this equality is symmetric, and cross-kind pairs
such as integer `1` and string `"1"` compare unequal; it is reflexive on
every value EXCEPT a float whose payload is IEEE NaN, where the equality
the program computes is irreflexive. -/
theorem claimC4 :
    (∀ l r : ValueD,
      binOpEqD TokenType.EQUAL_EQUAL l r = some (.VBool (variantEqD l r))) ∧
    (∀ l r : ValueD,
      binOpEqD TokenType.BANG_EQUAL l r = some (.VBool (!variantEqD l r))) ∧
    (∀ l r : ValueD, variantEqD l r = variantEqD r l) ∧
    (∀ v : ValueD, isNanD v = false → variantEqD v v = true) ∧
    variantEqD (.VInt 1) (.VStr "1") = false := by
  refine ⟨fun l r => rfl, fun l r => rfl, variantEqD_symm, ?_, rfl⟩
  intro v hv
  cases v with
  | VInt a => simp [variantEqD]
  | VFloat d =>
    cases d with
    | finite q => simp [variantEqD, doubleEq]
    | posInf => rfl
    | negInf => rfl
    | nan => simp [isNanD] at hv
  | VStr a => simp [variantEqD]
  | VBool a => simp [variantEqD]
  | VNil => rfl

/-- C4 witness: the reflexivity clause of `claimC4` applied at the
concrete non-NaN value float `1`. -/
theorem claimC4_witness :
    isNanD (.VFloat (.finite 1)) = false ∧
    variantEqD (.VFloat (.finite 1)) (.VFloat (.finite 1)) = true :=
  ⟨rfl, claimC4.2.2.2.1 (.VFloat (.finite 1)) rfl⟩

/-- C5: the `/` operator distinguishes two fault kinds. On same-kind numeric
operands with a zero right operand it raises "Division by zero" (both
integer and float kinds); on same-kind numeric operands with nonzero
divisor it divides; on any other pair it raises "Invalid operands to /".
End to end, the program `10 / 0;` (whose literals parse as float-kind
values) faults with "Division by zero" while `true / 1;` faults with
"Invalid operands to /". -/
theorem claimC5 :
    (∀ a : Int, binOp TokenType.SLASH (.VInt a) (.VInt 0) = .error "Division by zero") ∧
    (∀ q : Rat, binOp TokenType.SLASH (.VFloat q) (.VFloat 0) = .error "Division by zero") ∧
    (∀ a b : Int, b ≠ 0 →
      binOp TokenType.SLASH (.VInt a) (.VInt b) = .ok (.VInt (a.tdiv b))) ∧
    (∀ p q : Rat, q ≠ 0 →
      binOp TokenType.SLASH (.VFloat p) (.VFloat q) = .ok (.VFloat (p / q))) ∧
    (∀ l r : Value, isNumPair l r = false →
      binOp TokenType.SLASH l r = .error "Invalid operands to /") ∧
    parseRunFault [⟨.INTEGER_LITERAL, "10", 1, 1⟩, ⟨.SLASH, "/", 1, 4⟩,
      ⟨.INTEGER_LITERAL, "0", 1, 6⟩, ⟨.SEMICOLON, ";", 1, 7⟩, ⟨.END_OF_FILE, "", 1, 8⟩] =
      some "Division by zero" ∧
    parseRunFault [⟨.TRUE, "true", 1, 1⟩, ⟨.SLASH, "/", 1, 6⟩,
      ⟨.INTEGER_LITERAL, "1", 1, 8⟩, ⟨.SEMICOLON, ";", 1, 9⟩, ⟨.END_OF_FILE, "", 1, 10⟩] =
      some "Invalid operands to /" := by
  refine ⟨fun a => by simp [binOp], fun q => by simp [binOp], ?_, ?_, ?_, by decide, by decide⟩
  · intro a b hb; simp [binOp, hb]
  · intro p q hq; simp [binOp, hq]
  · intro l r h
    cases l <;> cases r <;> simp_all [binOp, isNumPair]

/-- C5 witness: the hypothesis-bearing clauses of `claimC5` applied at
concrete inputs — `7 / 2` (integers) divides to `3`, `1.0 / 2.0` divides to
`1/2`, and the mismatched pair `true / 1` is rejected as invalid
operands. -/
theorem claimC5_witness :
    binOp TokenType.SLASH (.VInt 7) (.VInt 2) = .ok (.VInt 3) ∧
    binOp TokenType.SLASH (.VFloat 1) (.VFloat 2) = .ok (.VFloat (1 / 2)) ∧
    binOp TokenType.SLASH (.VBool true) (.VInt 1) = .error "Invalid operands to /" :=
  ⟨claimC5.2.2.1 7 2 (by decide), claimC5.2.2.2.1 1 2 (by decide),
   claimC5.2.2.2.2.1 (.VBool true) (.VInt 1) (by decide)⟩

/-- C7: reading a name that is unbound in the environment faults with
"Undefined variable: " followed by the name, while a bound name evaluates
to its value without a fault; assignment never faults on its own — whenever
its right-hand side evaluates, the assignment succeeds and updates the
environment by insert-or-overwrite (`setVar`) — and a read after a write
returns the value written, with a second write to the same name winning
over the first. -/
theorem claimC7 : ∀ (st : IState) (name : Token),
    (st.vars name.lexeme = none →
      evalE (.var name) st = .error ("Undefined variable: " ++ name.lexeme, st)) ∧
    (∀ v, st.vars name.lexeme = some v → evalE (.var name) st = .ok (v, st)) ∧
    (∀ (e : Expr) (v : Value) (st₁ : IState), evalE e st = .ok (v, st₁) →
      evalE (.assign name e) st =
        .ok (v, { st₁ with vars := setVar st₁.vars name.lexeme v })) ∧
    (∀ (vars : String → Option Value) (v : Value),
      setVar vars name.lexeme v name.lexeme = some v) ∧
    (∀ (vars : String → Option Value) (v₁ v₂ : Value),
      setVar (setVar vars name.lexeme v₁) name.lexeme v₂ name.lexeme = some v₂) := by
  intro st name
  refine ⟨?_, ?_, ?_, ?_, ?_⟩
  · intro h; simp [evalE, h]
  · intro v h; simp [evalE, h]
  · intro e v st₁ h; simp [evalE, h]
  · intro vars v; simp [setVar]
  · intro vars v₁ v₂; simp [setVar]

/-- C7 witness: in the empty state, reading `x` faults with "Undefined
variable: x"; assigning `x = 2` via a literal succeeds, and the program
`var x = 1; x = 2; print(x);` prints `2` with no fault — the read returns
the last value written. -/
theorem claimC7_witness :
    evalE (.var ⟨.IDENTIFIER, "x", 1, 1⟩) initState =
      .error ("Undefined variable: x", initState) ∧
    evalE (.assign ⟨.IDENTIFIER, "x", 1, 1⟩ (.lit (.VFloat 2))) initState =
      .ok (.VFloat 2, { initState with
        vars := setVar initState.vars "x" (.VFloat 2) }) ∧
    runFault [Stmt.varDecl ⟨.IDENTIFIER, "x", 1, 5⟩ (some (.lit (.VFloat 1))) false,
      Stmt.exprStmt (.assign ⟨.IDENTIFIER, "x", 2, 1⟩ (.lit (.VFloat 2))),
      Stmt.exprStmt (.call (.var ⟨.IDENTIFIER, "print", 3, 1⟩) ⟨.RIGHT_PAREN, ")", 3, 8⟩
        [.var ⟨.IDENTIFIER, "x", 3, 7⟩])] = none ∧
    runOutput [Stmt.varDecl ⟨.IDENTIFIER, "x", 1, 5⟩ (some (.lit (.VFloat 1))) false,
      Stmt.exprStmt (.assign ⟨.IDENTIFIER, "x", 2, 1⟩ (.lit (.VFloat 2))),
      Stmt.exprStmt (.call (.var ⟨.IDENTIFIER, "print", 3, 1⟩) ⟨.RIGHT_PAREN, ")", 3, 8⟩
        [.var ⟨.IDENTIFIER, "x", 3, 7⟩])] = ["2"] := by
  refine ⟨(claimC7 initState _).1 rfl, (claimC7 initState _).2.2.1 _ _ _ rfl, by decide, by decide⟩

/-- C9: executing a `var` declaration without an initializer binds the
declared name to the Nil value (the `Value value = nullptr` default of
`Interpreter::visitVarDeclStmt`); a subsequent read of that name returns
`nil` rather than faulting. The parser produces exactly such a
no-initializer declaration from `var x;` (for any identifier lexeme), and
the two-statement program `var x; x;` runs without any fault. -/
theorem claimC9 : ∀ (st : IState) (name : Token) (isConst : Bool),
    exec (.varDecl name none isConst) st =
      .ok { st with vars := setVar st.vars name.lexeme .VNil } ∧
    evalE (.var name) { st with vars := setVar st.vars name.lexeme .VNil } =
      .ok (.VNil, { st with vars := setVar st.vars name.lexeme .VNil }) ∧
    (∀ s : String,
      parseP [⟨.VAR, "var", 1, 1⟩, ⟨.IDENTIFIER, s, 1, 5⟩, ⟨.SEMICOLON, ";", 1, 6⟩,
          ⟨.END_OF_FILE, "", 1, 7⟩] "test" =
        ([Stmt.varDecl ⟨.IDENTIFIER, s, 1, 5⟩ none false], [])) ∧
    runFault [Stmt.varDecl name none isConst, Stmt.exprStmt (.var name)] = none := by
  intro st name isConst
  refine ⟨rfl, ?_, fun s => rfl, ?_⟩
  · simp [evalE, setVar]
  · simp [runFault, interpret, exec, evalE, setVar, initState]

/-- C1 (documents the defect): at the interpreter's operator level, `+` on a
string and an integer concatenates with the integer rendered as decimal
text, in either order — exactly as the claim states. But `Parser::primary`
converts every integer literal through the same `std::stod` call as float
literals, so the literal `1` reaches `+` as a float-kind value: the
string+integer branches are unreachable from literals, and the programs
`"a" + 1;` and `1 + "a";` both fault with "Invalid operands to +" instead
of evaluating to `"a1"` / `"1a"`. -/
theorem claimC1 :
    (∀ (s : String) (n : Int),
      binOp TokenType.PLUS (.VStr s) (.VInt n) = .ok (.VStr (s ++ toString n))) ∧
    (∀ (s : String) (n : Int),
      binOp TokenType.PLUS (.VInt n) (.VStr s) = .ok (.VStr (toString n ++ s))) ∧
    parseP [⟨.STRING_LITERAL, "a", 1, 1⟩, ⟨.PLUS, "+", 1, 5⟩, ⟨.INTEGER_LITERAL, "1", 1, 7⟩,
        ⟨.SEMICOLON, ";", 1, 8⟩, ⟨.END_OF_FILE, "", 1, 9⟩] "test" =
      ([Stmt.exprStmt (.binary (.lit (.VStr "a")) ⟨.PLUS, "+", 1, 5⟩
          (.lit (.VFloat (stod "1"))))], []) ∧
    parseRunFault [⟨.STRING_LITERAL, "a", 1, 1⟩, ⟨.PLUS, "+", 1, 5⟩,
        ⟨.INTEGER_LITERAL, "1", 1, 7⟩, ⟨.SEMICOLON, ";", 1, 8⟩, ⟨.END_OF_FILE, "", 1, 9⟩] =
      some "Invalid operands to +" ∧
    parseRunFault [⟨.INTEGER_LITERAL, "1", 1, 1⟩, ⟨.PLUS, "+", 1, 3⟩,
        ⟨.STRING_LITERAL, "a", 1, 5⟩, ⟨.SEMICOLON, ";", 1, 9⟩, ⟨.END_OF_FILE, "", 1, 10⟩] =
      some "Invalid operands to +" :=
  ⟨fun _ _ => rfl, fun _ _ => rfl, rfl, by decide, by decide⟩

/-- C6: multiplicative binds tighter than additive — for all integer-literal
lexemes `a`, `b`, `c`, the statement `a + b * c ;` parses to `a + (b * c)`
(a `+`-rooted tree whose right child is the `*` node) and that tree
evaluates to the float-kind value `stod a + stod b * stod c`; in particular
the parsed expression of `1 + 2 * 3;` evaluates to the number `7`. -/
theorem claimC6 : ∀ a b c : String,
    parseP [⟨.INTEGER_LITERAL, a, 1, 1⟩, ⟨.PLUS, "+", 1, 3⟩, ⟨.INTEGER_LITERAL, b, 1, 5⟩,
        ⟨.STAR, "*", 1, 7⟩, ⟨.INTEGER_LITERAL, c, 1, 9⟩, ⟨.SEMICOLON, ";", 1, 10⟩,
        ⟨.END_OF_FILE, "", 1, 11⟩] "test" =
      ([Stmt.exprStmt (.binary (.lit (.VFloat (stod a))) ⟨.PLUS, "+", 1, 3⟩
          (.binary (.lit (.VFloat (stod b))) ⟨.STAR, "*", 1, 7⟩
            (.lit (.VFloat (stod c)))))], []) ∧
    evalValue (.binary (.lit (.VFloat (stod a))) ⟨.PLUS, "+", 1, 3⟩
        (.binary (.lit (.VFloat (stod b))) ⟨.STAR, "*", 1, 7⟩ (.lit (.VFloat (stod c))))) =
      some (.VFloat (stod a + stod b * stod c)) ∧
    evalValue (.binary (.lit (.VFloat (stod "1"))) ⟨.PLUS, "+", 1, 3⟩
        (.binary (.lit (.VFloat (stod "2"))) ⟨.STAR, "*", 1, 7⟩ (.lit (.VFloat (stod "3"))))) =
      some (.VFloat 7) := by
  intro a b c
  refine ⟨rfl, rfl, ?_⟩
  have hv : evalValue (.binary (.lit (.VFloat (stod "1"))) ⟨.PLUS, "+", 1, 3⟩
      (.binary (.lit (.VFloat (stod "2"))) ⟨.STAR, "*", 1, 7⟩ (.lit (.VFloat (stod "3"))))) =
      some (.VFloat (stod "1" + stod "2" * stod "3")) := rfl
  have h1 : stod "1" = 1 := by decide
  have h2 : stod "2" = 2 := by decide
  have h3 : stod "3" = 3 := by decide
  rw [hv, h1, h2, h3]
  norm_num

/-- Helper: the skipping loop of `synchronize` stops only at end of file,
just after a consumed statement terminator (semicolon), or in front of a
token that begins a new statement. -/
theorem syncLoop_post (st : PState) :
    isAtEndP (syncLoopP st) = true ∨
    (syncLoopP st).prev.type = TokenType.SEMICOLON ∨
    isSyncKeyword (peekP (syncLoopP st)).type = true := by
  generalize hgen : st.rest.length = n
  induction n using Nat.strong_induction_on generalizing st with
  | _ n ih =>
    rw [syncLoopP]
    split
    · rename_i h
      left
      simp [isAtEndP, peekP, h, eofTok]
    · rename_i t ts h
      split
      · rename_i hEOF
        left
        simp [isAtEndP, peekP, h, hEOF]
      · split
        · rename_i hSemi
          right; left; exact hSemi
        · split
          · rename_i hKw
            right; right
            simpa [peekP, h] using hKw
          · exact ih ts.length (by subst hgen; rw [h]; simp) _ rfl

/-- C3: a parse failure never escapes — `parse` always returns the pair of
best-effort statements and diagnostics produced by the catch-and-resume
loop — and recovery works as described: whenever a declaration fails
(throws) away from end of file, the loop keeps the diagnostics reported up
to the throw, resynchronizes from the failure state, and resumes parsing
there, contributing the statements parsed after recovery; `synchronize`
first advances one token and then skips to a point that is end of file,
just after a consumed semicolon, or in front of a statement-starting
keyword. -/
theorem claimC3 :
    (∀ (toks : List Token) (fname : String),
      parseP toks fname =
        ((parseLoopP (parseFuel toks) ⟨toks, eofTok, fname⟩).1,
         (parseLoopP (parseFuel toks) ⟨toks, eofTok, fname⟩).2.1)) ∧
    (∀ (fuel : Nat) (st : PState) (m : String) (stE : PState) (ds : List Diag),
      isAtEndP st = false → declarationP fuel st = .err m stE ds →
      parseLoopP (fuel+1) st =
        ((parseLoopP fuel (synchronizeP stE)).1,
         ds ++ (parseLoopP fuel (synchronizeP stE)).2.1,
         (parseLoopP fuel (synchronizeP stE)).2.2)) ∧
    (∀ st : PState, synchronizeP st = syncLoopP (advanceP st).2) ∧
    (∀ st : PState,
      isAtEndP (syncLoopP st) = true ∨
      (syncLoopP st).prev.type = TokenType.SEMICOLON ∨
      isSyncKeyword (peekP (syncLoopP st)).type = true) := by
  refine ⟨fun toks fname => rfl, ?_, fun st => rfl, syncLoop_post⟩
  intro fuel st m stE ds hEnd hDecl
  simp [parseLoopP, hEnd, hDecl]

/-- C3 witness: on the malformed statement `= ;` the declaration parser
throws "Expect expression." without consuming anything, reporting one
diagnostic; the parse loop catches it and resumes from the resynchronized
state. -/
theorem claimC3_witness :
    isAtEndP ⟨[⟨.EQUAL, "=", 1, 1⟩, ⟨.SEMICOLON, ";", 1, 2⟩, ⟨.END_OF_FILE, "", 1, 3⟩],
      eofTok, "t"⟩ = false ∧
    declarationP 40 ⟨[⟨.EQUAL, "=", 1, 1⟩, ⟨.SEMICOLON, ";", 1, 2⟩, ⟨.END_OF_FILE, "", 1, 3⟩],
        eofTok, "t"⟩ =
      .err "Expect expression."
        ⟨[⟨.EQUAL, "=", 1, 1⟩, ⟨.SEMICOLON, ";", 1, 2⟩, ⟨.END_OF_FILE, "", 1, 3⟩], eofTok, "t"⟩
        [mkError ⟨[⟨.EQUAL, "=", 1, 1⟩, ⟨.SEMICOLON, ";", 1, 2⟩, ⟨.END_OF_FILE, "", 1, 3⟩],
            eofTok, "t"⟩
          (peekP ⟨[⟨.EQUAL, "=", 1, 1⟩, ⟨.SEMICOLON, ";", 1, 2⟩, ⟨.END_OF_FILE, "", 1, 3⟩],
            eofTok, "t"⟩) "Expect expression."] ∧
    parseLoopP 41 ⟨[⟨.EQUAL, "=", 1, 1⟩, ⟨.SEMICOLON, ";", 1, 2⟩, ⟨.END_OF_FILE, "", 1, 3⟩],
        eofTok, "t"⟩ =
      ((parseLoopP 40 (synchronizeP
          ⟨[⟨.EQUAL, "=", 1, 1⟩, ⟨.SEMICOLON, ";", 1, 2⟩, ⟨.END_OF_FILE, "", 1, 3⟩],
            eofTok, "t"⟩)).1,
       [mkError ⟨[⟨.EQUAL, "=", 1, 1⟩, ⟨.SEMICOLON, ";", 1, 2⟩, ⟨.END_OF_FILE, "", 1, 3⟩],
            eofTok, "t"⟩
          (peekP ⟨[⟨.EQUAL, "=", 1, 1⟩, ⟨.SEMICOLON, ";", 1, 2⟩, ⟨.END_OF_FILE, "", 1, 3⟩],
            eofTok, "t"⟩) "Expect expression."] ++
         (parseLoopP 40 (synchronizeP
          ⟨[⟨.EQUAL, "=", 1, 1⟩, ⟨.SEMICOLON, ";", 1, 2⟩, ⟨.END_OF_FILE, "", 1, 3⟩],
            eofTok, "t"⟩)).2.1,
       (parseLoopP 40 (synchronizeP
          ⟨[⟨.EQUAL, "=", 1, 1⟩, ⟨.SEMICOLON, ";", 1, 2⟩, ⟨.END_OF_FILE, "", 1, 3⟩],
            eofTok, "t"⟩)).2.2) :=
  ⟨rfl, rfl, claimC3.2.1 40 _ _ _ _ rfl rfl⟩

/-- Helper: forgetting diagnostics commutes with splicing diagnostics in
front of a parse result. -/
theorem PR.noDs_pre {α : Type} (p : List Diag) (r : PR α) : (r.pre p).noDs = r.noDs := by
  cases r <;> rfl

/-- Helper: the 255-argument check is diagnostic-only — the argument loop
with the check removed returns the same arguments, final state and
success/failure for every fuel, accumulator and state. -/
theorem argsLoop_noDs : ∀ (fuel : Nat) (args : List Expr) (st : PState),
    (argsLoopP fuel args st).noDs = (argsLoopNoLimit fuel args st).noDs := by
  intro fuel
  induction fuel with
  | zero => intro args st; rfl
  | succ fuel ih =>
    intro args st
    cases hE : expressionP fuel st with
    | out => simp [argsLoopP, argsLoopNoLimit, hE, PR.noDs]
    | err m stE ds => simp [argsLoopP, argsLoopNoLimit, hE, PR.noDs]
    | ok a st₁ ds₁ =>
      cases hM : matchTokP TokenType.COMMA st₁ with
      | none => simp [argsLoopP, argsLoopNoLimit, hE, hM, PR.noDs]
      | some st₂ =>
        simp only [argsLoopP, argsLoopNoLimit, hE, hM, PR.noDs_pre]
        exact ih (args ++ [a]) st₂

/-- Helper: once more than 255 arguments have been collected, the next
argument-loop step reports the soft-limit diagnostic first (unless the
depth budget, never reached from `parseP`, ran out). -/
theorem argsLoop_reports (fuel : Nat) (args : List Expr) (st : PState)
    (h255 : 255 ≤ args.length) :
    argsLoopP (fuel+1) args st = .out ∨
    ∃ rest, (argsLoopP (fuel+1) args st).diags =
      mkError st (peekP st) "Cannot have more than 255 arguments." :: rest := by
  cases hE : expressionP fuel st with
  | out => left; simp [argsLoopP, hE]
  | err m stE ds =>
    right
    refine ⟨ds, ?_⟩
    simp [argsLoopP, hE, PR.diags, h255]
  | ok a st₁ ds₁ =>
    cases hM : matchTokP TokenType.COMMA st₁ with
    | none =>
      right
      refine ⟨ds₁, ?_⟩
      simp [argsLoopP, hE, hM, PR.diags, h255]
    | some st₂ =>
      cases hR : argsLoopP fuel (args ++ [a]) st₂ with
      | out => left; simp [argsLoopP, hE, hM, hR, PR.pre]
      | err m stE ds =>
        right
        refine ⟨ds₁ ++ ds, ?_⟩
        simp [argsLoopP, hE, hM, hR, PR.pre, PR.diags, h255]
      | ok a₂ st₃ ds₃ =>
        right
        refine ⟨ds₁ ++ ds₃, ?_⟩
        simp [argsLoopP, hE, hM, hR, PR.pre, PR.diags, h255]

/-- C8: exceeding 255 call arguments is reported but not fatal. The
argument loop with the limit check removed (`argsLoopNoLimit`) produces the
same arguments, final state and success/failure for every input — so the
check only adds diagnostics and parsing continues unchanged; whenever more
than 255 arguments have been collected, the next step reports the
"Cannot have more than 255 arguments." diagnostic first; and concretely the
program `f(1, ..., 1); 2;` with 256 arguments parses to two statements —
the first a call expression with all 256 arguments — with exactly one
diagnostic. -/
theorem claimC8 :
    (∀ (fuel : Nat) (args : List Expr) (st : PState),
      (argsLoopP fuel args st).noDs = (argsLoopNoLimit fuel args st).noDs) ∧
    (∀ (fuel : Nat) (args : List Expr) (st : PState), 255 ≤ args.length →
      argsLoopP (fuel+1) args st = .out ∨
      ∃ rest, (argsLoopP (fuel+1) args st).diags =
        mkError st (peekP st) "Cannot have more than 255 arguments." :: rest) ∧
    (parseP toks256 "t").1.length = 2 ∧
    (parseP toks256 "t").2.length = 1 ∧
    stmtArgCount ((parseP toks256 "t").1.headD .funcS) = 256 :=
  ⟨argsLoop_noDs, argsLoop_reports, by decide, by decide, by decide⟩

/-- C8 witness: the hypothesis-bearing soft-limit clause of `claimC8`
applied to a concrete 255-argument accumulator about to parse one more
argument. -/
theorem claimC8_witness :
    255 ≤ (List.replicate 255 (Expr.lit Value.VNil)).length ∧
    (argsLoopP 40 (List.replicate 255 (Expr.lit Value.VNil))
        ⟨[⟨.INTEGER_LITERAL, "1", 1, 1⟩, ⟨.RIGHT_PAREN, ")", 1, 2⟩,
          ⟨.END_OF_FILE, "", 1, 3⟩], eofTok, "t"⟩ = .out ∨
      ∃ rest, (argsLoopP 40 (List.replicate 255 (Expr.lit Value.VNil))
          ⟨[⟨.INTEGER_LITERAL, "1", 1, 1⟩, ⟨.RIGHT_PAREN, ")", 1, 2⟩,
            ⟨.END_OF_FILE, "", 1, 3⟩], eofTok, "t"⟩).diags =
        mkError ⟨[⟨.INTEGER_LITERAL, "1", 1, 1⟩, ⟨.RIGHT_PAREN, ")", 1, 2⟩,
            ⟨.END_OF_FILE, "", 1, 3⟩], eofTok, "t"⟩
          (peekP ⟨[⟨.INTEGER_LITERAL, "1", 1, 1⟩, ⟨.RIGHT_PAREN, ")", 1, 2⟩,
            ⟨.END_OF_FILE, "", 1, 3⟩], eofTok, "t"⟩)
          "Cannot have more than 255 arguments." :: rest) :=
  ⟨by simp, claimC8.2.1 39 _ _ (by simp)⟩

/-- Helper: evaluating an expression that contains no syntactic call to the
`print` built-in leaves the output sink untouched, whether the evaluation
returns a value or faults — only the print branch of
`Interpreter::visitCallExpr` ever writes to it. -/
theorem evalE_out : ∀ (e : Expr) (st : IState), callsPrint e = false →
    EResOutput (evalE e st) = st.output
  | .lit _, _, _ => rfl
  | .grouping e, st, h => evalE_out e st (by simpa [callsPrint] using h)
  | .var name, st, _ => by
    cases hv : st.vars name.lexeme <;> simp [evalE, hv, EResOutput]
  | .unary op r, st, h => by
    have ih := evalE_out r st (by simpa [callsPrint] using h)
    cases hr : evalE r st with
    | error f =>
      rw [hr] at ih
      simpa [evalE, hr] using ih
    | ok p =>
      obtain ⟨rv, st₁⟩ := p
      rw [hr] at ih
      simp only [EResOutput] at ih
      simp only [evalE, hr]
      split
      · cases rv <;> simp [EResOutput, ih]
      · split
        · cases rv <;> simp [EResOutput, ih]
        · simp [EResOutput, ih]
  | .binary l op r, st, h => by
    have hcp : callsPrint l = false ∧ callsPrint r = false := by
      simpa [callsPrint] using h
    have ihl := evalE_out l st hcp.1
    cases hL : evalE l st with
    | error f =>
      rw [hL] at ihl
      simpa [evalE, hL] using ihl
    | ok p =>
      obtain ⟨lv, st₁⟩ := p
      rw [hL] at ihl
      simp only [EResOutput] at ihl
      have ihr := evalE_out r st₁ hcp.2
      cases hR : evalE r st₁ with
      | error f =>
        rw [hR] at ihr
        simp only [EResOutput] at ihr
        simp [evalE, hL, hR, EResOutput, ihr, ihl]
      | ok q =>
        obtain ⟨rv, st₂⟩ := q
        rw [hR] at ihr
        simp only [EResOutput] at ihr
        cases hB : binOp op.type lv rv <;> simp [evalE, hL, hR, hB, EResOutput, ihr, ihl]
  | .assign name e, st, h => by
    have ih := evalE_out e st (by simpa [callsPrint] using h)
    cases he : evalE e st with
    | error f =>
      rw [he] at ih
      simpa [evalE, he] using ih
    | ok p =>
      obtain ⟨v, st₁⟩ := p
      rw [he] at ih
      simp only [EResOutput] at ih
      simp [evalE, he, EResOutput, ih]
  | .call c paren args, st, h => by
    simp only [callsPrint, Bool.or_eq_false_iff] at h
    cases c with
    | var t =>
      have hname : ¬t.lexeme = "print" := by
        simpa using h.1.1
      simp [evalE, hname, EResOutput]
    | lit v => simp [evalE, EResOutput]
    | unary a b => simp [evalE, EResOutput]
    | binary a b c => simp [evalE, EResOutput]
    | grouping a => simp [evalE, EResOutput]
    | assign a b => simp [evalE, EResOutput]
    | call a b c => simp [evalE, EResOutput]

/-- C10: a statement headed by a `PRINT` keyword token is parsed by
`statement` into `printStatement`, which wraps the expression following the
keyword in a plain `ExpressionStmt` — no call or print node is created for
the keyword itself; executing an expression statement whose expression
contains no syntactic call to the `print` variable writes nothing to the
output sink; and concretely `print 1;` (with `print` lexed as the keyword)
parses to a bare literal expression statement whose run prints nothing. -/
theorem claimC10 :
    (∀ (fuel : Nat) (st : PState) (t : Token) (ts : List Token),
      st.rest = t :: ts → t.type = TokenType.PRINT →
      statementP (fuel+1) st = printStatementP fuel { st with rest := ts, prev := t }) ∧
    (∀ (fuel : Nat) (st : PState) (v : Expr) (st₁ : PState) (ds₁ : List Diag)
        (tok : Token) (st₂ : PState),
      expressionP fuel st = .ok v st₁ ds₁ →
      consumeTokP TokenType.SEMICOLON "Expect \x27;\x27 after value." st₁ = .ok (tok, st₂) →
      printStatementP (fuel+1) st = .ok (.exprStmt v) st₂ ds₁) ∧
    (∀ (e : Expr) (st : IState), callsPrint e = false →
      SResOutput (exec (.exprStmt e) st) = st.output) ∧
    parseP [⟨.PRINT, "print", 1, 1⟩, ⟨.INTEGER_LITERAL, "1", 1, 7⟩, ⟨.SEMICOLON, ";", 1, 8⟩,
        ⟨.END_OF_FILE, "", 1, 9⟩] "test" =
      ([Stmt.exprStmt (.lit (.VFloat (stod "1")))], []) ∧
    parseRunOutput [⟨.PRINT, "print", 1, 1⟩, ⟨.INTEGER_LITERAL, "1", 1, 7⟩,
        ⟨.SEMICOLON, ";", 1, 8⟩, ⟨.END_OF_FILE, "", 1, 9⟩] = [] := by
  refine ⟨?_, ?_, ?_, rfl, by decide⟩
  · intro fuel st t ts h ht
    simp [statementP, matchTokP, h, ht]
  · intro fuel st v st₁ ds₁ tok st₂ hE hC
    simp [printStatementP, hE, hC]
  · intro e st h
    cases hv : evalE e st with
    | ok p =>
      obtain ⟨v, st₁⟩ := p
      have := evalE_out e st h
      rw [hv] at this
      simpa [exec, hv, SResOutput, EResOutput] using this
    | error f =>
      have := evalE_out e st h
      rw [hv] at this
      simpa [exec, hv, SResOutput, EResOutput] using this

/-- C10 witness: the dispatch and wrapping clauses of `claimC10` applied at
the concrete token stream of `print 1;` and its parsed expression. -/
theorem claimC10_witness :
    (⟨[⟨.PRINT, "print", 1, 1⟩, ⟨.INTEGER_LITERAL, "1", 1, 7⟩, ⟨.SEMICOLON, ";", 1, 8⟩,
        ⟨.END_OF_FILE, "", 1, 9⟩], eofTok, "test"⟩ : PState).rest =
      ⟨.PRINT, "print", 1, 1⟩ :: [⟨.INTEGER_LITERAL, "1", 1, 7⟩, ⟨.SEMICOLON, ";", 1, 8⟩,
        ⟨.END_OF_FILE, "", 1, 9⟩] ∧
    (⟨.PRINT, "print", 1, 1⟩ : Token).type = TokenType.PRINT ∧
    statementP 41 ⟨[⟨.PRINT, "print", 1, 1⟩, ⟨.INTEGER_LITERAL, "1", 1, 7⟩,
        ⟨.SEMICOLON, ";", 1, 8⟩, ⟨.END_OF_FILE, "", 1, 9⟩], eofTok, "test"⟩ =
      printStatementP 40 ⟨[⟨.INTEGER_LITERAL, "1", 1, 7⟩, ⟨.SEMICOLON, ";", 1, 8⟩,
        ⟨.END_OF_FILE, "", 1, 9⟩], ⟨.PRINT, "print", 1, 1⟩, "test"⟩ ∧
    callsPrint (.lit (.VFloat (stod "1"))) = false ∧
    SResOutput (exec (.exprStmt (.lit (.VFloat (stod "1")))) initState) = initState.output :=
  ⟨rfl, rfl, claimC10.1 40 _ _ _ rfl rfl, rfl,
   claimC10.2.2.1 (.lit (.VFloat (stod "1"))) initState rfl⟩

end Mana
